import Mathlib

/-!
Shallow embedding of `flash.py` (the "flash" dotfile linker) in Lean 4,
together with theorems checking the natural-language specification of the
program against this embedding.

Modelling conventions:
* External collaborators (the PATH probe `shutil.which`, the shell
  `os.system`, and the interactive `click.confirm`) are collected in an
  `Env` record of pure functions: an `Env` is a snapshot of the outside
  world for one run.
* Side effects are made observable as a trace (`List Event`) returned next
  to each function's result: every shell invocation, warning and printed
  error line becomes an `Event`.
* Python exceptions and `exit()` are modelled by the `Outcome` type:
  `.ok` for normal return, `.exc` for a raised exception
  (`click.ClickException`, `click.Abort`, plain `Exception`, `NameError`,
  `IndexError`), `.exits n` for `exit(n)` / `SystemExit`.
* Python truthiness on optional lists (`if dep.install_cmds:`) is modelled
  by `pyTruthy`; `x if x else y` on optional strings by `pyStrOr`.
* f-strings are rendered with `++` concatenation.  The repr of a
  `Dependency` dataclass inside two messages is abbreviated to its `cmd`
  field (`depShow`); no claim depends on that text.
-/

/-- Exceptions that the embedded code can raise. -/
inductive Exc where
  | clickException (msg : String)
  | abort
  | generic (msg : String)
  | nameError (nm : String)
  | indexError
  deriving DecidableEq

/-- Result of running a piece of the embedded program: normal value,
raised exception, or process exit (via `exit(n)` / `SystemExit`). -/
inductive Outcome (α : Type) where
  | ok (a : α)
  | exc (e : Exc)
  | exits (code : Nat)
  deriving DecidableEq

/-- Observable events: shell command invocations (`os.system` /
`exec_command`), warnings, error lines, step banners and echoed text. -/
inductive Event where
  | run (cmd : String)
  | warn (msg : String)
  | errorOut (msg : String)
  | errorMsg (msg : String)
  | step (title : String)
  | echo (msg : String)
  deriving DecidableEq

/-- The message `str(e)` of an exception, as Python would render it. -/
def excMsg : Exc → String
  | .clickException m => m
  | .abort => "Abort"
  | .generic m => m
  | .nameError nm => "name " ++ nm ++ " is not defined"
  | .indexError => "list index out of range"

/-- External collaborators of one run, as a snapshot:
`which` is `shutil.which` (`command_exits`), `system` is `os.system`
returning a wait status, `confirm` answers `click.confirm` prompts by
their text, `confirmRun` answers the i-th repeated `Run?` prompt of the
post-link action runner, and `setIterOrder` is the (CPython-unspecified)
iteration order of the set literal `{"pacman", "yay", "brew"}`; it is
meaningful only as a permutation of `supportedManagers`. -/
structure Env where
  which : String → Bool
  system : String → Nat
  confirm : String → Bool
  confirmRun : Nat → Bool
  setIterOrder : List String

/-- `ManagerConf` dataclass. -/
structure ManagerConf where
  name : String
  package : Option String
  deriving DecidableEq

/-- One element of `ManagerConfs = list[Union[str, ManagerConf]]`. -/
inductive ManagerConfIn where
  | bare (s : String)
  | conf (c : ManagerConf)
  deriving DecidableEq

/-- `Dependency` dataclass. -/
structure Dependency where
  cmd : String
  install_cmds : Option (List String)
  uninstall_cmds : Option (List String)
  managers : Option (List ManagerConfIn)
  deriving DecidableEq

/-- A raw `Deps` / `OptionalDeps` element: bare string or table
(`_handle_dep`'s `d: str | dict`, the dict parsed by `from_dict`). -/
inductive DepIn where
  | bare (s : String)
  | dict (d : Dependency)
  deriving DecidableEq

/-- Python truthiness of an optional list (`None` and `[]` are falsy). -/
def pyTruthy {α : Type} : Option (List α) → Bool
  | none => false
  | some l => !l.isEmpty

/-- Python `x if x else d` for an optional string (`None` and `""` falsy). -/
def pyStrOr : Option String → String → String
  | some s, d => if s = "" then d else s
  | none, d => d

/-- Python `str.strip()`: drop whitespace from both ends. -/
def pyStrip (s : String) : String :=
  String.mk (((s.data.dropWhile Char.isWhitespace).reverse.dropWhile Char.isWhitespace).reverse)

/-- Helper for `pySplit`: accumulate the current word (reversed) while
scanning the character list. -/
def pyWordsAux : List Char → List Char → List String
  | [], acc => if acc.isEmpty then [] else [String.mk acc.reverse]
  | c :: cs, acc =>
      if c.isWhitespace then
        if acc.isEmpty then pyWordsAux cs []
        else String.mk acc.reverse :: pyWordsAux cs []
      else pyWordsAux cs (c :: acc)

/-- Python `str.split()` with no arguments: split on whitespace runs,
dropping empty fields. -/
def pySplit (s : String) : List String := pyWordsAux s.data []

/-- Leading token of a command string: `c.strip().split()[0]`
(total; returns `""` on an all-blank string; leading whitespace is
irrelevant to `pySplit`, so stripping first changes nothing). -/
def firstToken (c : String) : String :=
  (pySplit c).headD ""

/-- `unify_manager_confs`. -/
def unify_manager_confs (cmd : String) (confs : List ManagerConfIn) : List ManagerConf :=
  confs.map fun v =>
    match v with
    | .bare s => ManagerConf.mk s (some cmd)
    | .conf c => c

/-- The set literal `{"pacman", "yay", "brew"}` as a list (membership
tests only; iteration of the set goes through `Env.setIterOrder`). -/
def supportedManagers : List String := ["pacman", "yay", "brew"]

/-- `handle_package`: build the manager-specific install/remove command,
run it, and return an error string (`""` on success).  Never raises. -/
def handle_package (env : Env) (package manager : String) (lk : Bool) : String × List Event :=
  if manager = "pacman" ∨ manager = "yay" then
    let op := if lk then "-S" else "-Rs"
    let cmd0 := manager ++ " " ++ op ++ " " ++ package
    let cmd := if manager = "pacman" then "sudo " ++ cmd0 else cmd0
    if env.system cmd ≠ 0 then
      ("failed to install " ++ package ++ " with " ++ manager, [Event.run cmd])
    else ("", [Event.run cmd])
  else if manager = "brew" then
    let cmd := manager ++ " " ++ (if lk then "install" else "uninstall") ++ " " ++ package
    if env.system cmd ≠ 0 then
      ("failed to install " ++ package ++ " with " ++ manager, [Event.run cmd])
    else ("", [Event.run cmd])
  else ("unknown package manager: " ++ manager, [])

/-- One candidate attempt inside `handle_package_managers`'s loop:
`handle_package(m.package if m.package else cmd, m.name, link)`. -/
def hpAttempt (env : Env) (cmd : String) (lk : Bool) (m : ManagerConf) : String × List Event :=
  handle_package env (pyStrOr m.package cmd) m.name lk

/-- The `for m in installed:` loop of `handle_package_managers`: first
success returns `""`, each failure is warned and the next candidate tried,
exhaustion returns `"failed"`. -/
def hpmLoop (env : Env) (cmd : String) (lk : Bool) : List ManagerConf → String × List Event
  | [] => ("failed", [])
  | m :: rest =>
      let r := hpAttempt env cmd lk m
      if r.1 = "" then ("", r.2)
      else
        let r2 := hpmLoop env cmd lk rest
        (r2.1, r.2 ++ Event.warn r.1 :: r2.2)

/-- Tail of `handle_package_managers` once `installed` is computed:
`if not installed: return "no installed package manager found"`,
then the candidate loop. -/
def hpmAfterInstalled (env : Env) (cmd : String) (lk : Bool) (installed : List ManagerConf) :
    String × List Event :=
  match installed with
  | [] => ("no installed package manager found", [])
  | m :: rest => hpmLoop env cmd lk (m :: rest)

/-- `handle_package_managers`.  Returns an error string (`""` = success);
it never raises. -/
def handle_package_managers (env : Env) (cmd : String) (managers : List ManagerConf)
    (lk : Bool) : String × List Event :=
  match managers with
  | [] =>
      hpmAfterInstalled env cmd lk
        (env.setIterOrder.filterMap fun m =>
          if env.which m then some (ManagerConf.mk m (some cmd)) else none)
  | m :: rest =>
      match (m :: rest).filter (fun x => supportedManagers.contains x.name) with
      | [] => ("no supported package manager found", [])
      | s :: srest =>
          hpmAfterInstalled env cmd lk ((s :: srest).filter (fun x => env.which x.name))

/-- `install_command`: filters `commands` into `valid_commands` (non-blank
entries whose leading token resolves on PATH) but — exactly as the source
does — then iterates over the ORIGINAL `commands` list, running every
element via `os.system` with no break after a success; raises
`Exception("no valid command")` when the filtered list is empty and
`Exception("install failed")` when no run exited zero. -/
def install_command (env : Env) (commands : List String) : Outcome Unit × List Event :=
  let valid_commands := commands.filter fun c =>
    pyStrip c ≠ "" ∧ env.which (firstToken c) = true
  if valid_commands.length = 0 then
    (.exc (.generic "no valid command"), [])
  else
    let tr := commands.map Event.run
    if commands.any (fun c => env.system c = 0) then (.ok (), tr)
    else (.exc (.generic "install failed"), tr)

/-- `cmd_install_command`. `click.confirm(..., abort=True)` raises
`click.Abort` when declined. -/
def cmd_install_command (env : Env) (interactive : Bool) (cmd : String)
    (install_cmds : List String) : Outcome Unit × List Event :=
  if cmd ≠ "" ∧ env.which cmd = false then
    if interactive = false then
      (.exc (.clickException ("Command " ++ cmd ++ " not found")), [])
    else if env.confirm ("Install " ++ cmd ++ "?") = false then
      (.exc .abort, [])
    else if install_cmds.length = 0 then
      (.exc (.clickException "No install_cmds"), [])
    else
      match install_command env install_cmds with
      | (.exc e, tr) => (.exc (.clickException (excMsg e)), tr)
      | other => other
  else (.ok (), [])

/-- Abbreviated rendering of the dataclass repr `f"{dep}"` used inside two
messages of `_handle_dep`; the exact text is not load-bearing. -/
def depShow (d : Dependency) : String := d.cmd

/-- `LinkHandler._handle_dep`.  The bare-string case builds
`Dependency(d, None, None, None)`.  In the manager branch the return value
of `handle_package_managers` is DISCARDED, exactly as in the source (the
surrounding `try`/`except` only catches raised exceptions, and
`handle_package_managers` returns its errors instead of raising, so the
`except` arm is dead).  When linking, the command is re-probed afterwards. -/
def _handle_dep (env : Env) (interactive lk : Bool) (d : DepIn) : Outcome Unit × List Event :=
  let dep : Dependency :=
    match d with
    | .bare s => Dependency.mk s none none none
    | .dict dd => dd
  let phase1 : Outcome Unit × List Event :=
    if pyTruthy dep.install_cmds then
      let cmds := if lk then dep.install_cmds else dep.uninstall_cmds
      if pyTruthy cmds then
        cmd_install_command env interactive dep.cmd (cmds.getD [])
      else if interactive = false then
        (.exc (.clickException ("cant handle dependency: " ++ depShow dep)), [])
      else if env.confirm ("cant handle dependency: " ++ depShow dep ++ ", continue?") = false then
        (.exc .abort, [])
      else (.ok (), [])
    else
      let managers : List ManagerConfIn :=
        match dep.managers with
        | some ms => if ms.isEmpty then [] else ms
        | none => []
      let mconfs := unify_manager_confs dep.cmd managers
      let r := handle_package_managers env dep.cmd mconfs lk
      (.ok (), r.2)
  match phase1 with
  | (.ok _, tr) =>
      if lk = false then (.ok (), tr)
      else if env.which dep.cmd = false then
        if interactive = false then
          (.exc (.clickException (dep.cmd ++ " not found")), tr)
        else if env.confirm (dep.cmd ++ " not found, continue?") = false then
          (.exc .abort, tr)
        else (.ok (), tr)
      else (.ok (), tr)
  | other => other

/-- The `for dep in deps:` loop of `LinkHandler.handle_deps`: the first
raised exception propagates. -/
def depsLoop (env : Env) (interactive lk : Bool) : List DepIn → Outcome Unit × List Event
  | [] => (.ok (), [])
  | d :: rest =>
      match _handle_dep env interactive lk d with
      | (.ok _, tr) =>
          let r := depsLoop env interactive lk rest
          (r.1, tr ++ r.2)
      | (o, tr) => (o, tr)

/-- `LinkHandler.handle_deps`.  (The numeric step counter of
`LinkHandler.step` only affects the printed banner number and is omitted
from the `Event.step` rendering.) -/
def handle_deps (env : Env) (interactive lk : Bool) (deps : List DepIn) :
    Outcome Unit × List Event :=
  match deps with
  | [] => (.ok (), [])
  | d :: rest =>
      let r := depsLoop env interactive lk (d :: rest)
      (r.1, Event.step "Dependencies" :: r.2)

/-- The `for dep in deps:` loop of `LinkHandler.handle_optional_deps`:
`click.Abort` is re-raised, any other exception is warned and the loop
continues (`SystemExit`, i.e. `.exits`, is not an `Exception` and would
propagate). -/
def optDepsLoop (env : Env) (interactive lk : Bool) : List DepIn → Outcome Unit × List Event
  | [] => (.ok (), [])
  | d :: rest =>
      match _handle_dep env interactive lk d with
      | (.ok _, tr) =>
          let r := optDepsLoop env interactive lk rest
          (r.1, tr ++ r.2)
      | (.exc .abort, tr) => (.exc .abort, tr)
      | (.exits n, tr) => (.exits n, tr)
      | (.exc e, tr) =>
          let r := optDepsLoop env interactive lk rest
          (r.1, tr ++ Event.warn (excMsg e) :: r.2)

/-- `LinkHandler.handle_optional_deps`. -/
def handle_optional_deps (env : Env) (interactive lk : Bool) (deps : List DepIn) :
    Outcome Unit × List Event :=
  match deps with
  | [] => (.ok (), [])
  | d :: rest =>
      let r := optDepsLoop env interactive lk (d :: rest)
      (r.1, Event.step "Optional dependencies" :: r.2)

/-- The `[After]` section: `action.get("cmds", [])`. -/
structure AfterConf where
  cmds : List String
  deriving DecidableEq

/-- `os.waitstatus_to_exitcode` for a normally terminated process on
POSIX: the exit code is the high byte of the wait status. -/
def waitstatus_to_exitcode (ws : Nat) : Nat := ws / 256

/-- The `for idx, cmd in enumerate(...)` loop of `do_after_action`:
echo the command, prompt `Run?` (answered by `env.confirmRun idx`), run it
when accepted, report `Failed` on a non-zero status, and keep the last
wait status. -/
def do_after_loop (env : Env) : List String → Nat → Nat → Nat × List Event
  | [], _, last => (last, [])
  | c :: rest, idx, last =>
      let pre := Event.echo ("Cmd " ++ toString (idx + 1) ++ ": " ++ c)
      if env.confirmRun idx then
        let ws := env.system c
        let evs := if ws ≠ 0 then [Event.run c, Event.errorMsg "Failed"] else [Event.run c]
        let r := do_after_loop env rest (idx + 1) ws
        (r.1, pre :: evs ++ r.2)
      else
        let r := do_after_loop env rest (idx + 1) last
        (r.1, pre :: r.2)

/-- `do_after_action`: no-op when no action is declared or the initial
prompt is declined; otherwise runs the per-command loop and calls
`exit(os.waitstatus_to_exitcode(last_waitstatus))`. -/
def do_after_action (env : Env) (action : Option AfterConf) : Outcome Unit × List Event :=
  match action with
  | none => (.ok (), [])
  | some a =>
      if env.confirm "Do after action?" = false then (.ok (), [])
      else
        let r := do_after_loop env a.cmds 0 0
        (.exits (waitstatus_to_exitcode r.1), r.2)

/-- Condition of a destination path for `Path.symlink_to`:
creatable (`free`), already occupied (`FileExistsError`), parent directory
missing (`FileNotFoundError`), or parent exists but is not a directory
(`NotADirectoryError`). -/
inductive PathCond where
  | free
  | occupied
  | parentMissing
  | parentNotDir
  deriving DecidableEq

/-- Abstract filesystem state for one run: the entry directory's listing
(file names, possibly including `.flash.toml`) and the condition of every
destination path. -/
structure FS where
  entryDirItems : List String
  cond : String → PathCond

/-- Update the condition of one destination path. -/
def FS.setCond (fs : FS) (p : String) (c : PathCond) : FS :=
  FS.mk fs.entryDirItems (fun q => if q = p then c else fs.cond q)

/-- `LINK_CONFIG_FILE_NAME`. -/
def LINK_CONFIG_FILE_NAME : String := ".flash.toml"

/-- `config_dir` (the `FLASH_CONFIG_DIR` environment variable, default
`"."`; the default is used — no claim varies it). -/
def configDir : String := "."

/-- Path join `a / b` of `pathlib`. -/
def pjoin (a b : String) : String := a ++ "/" ++ b

/-- `link.parent` rendered on joined string paths: everything before the
last separator. -/
def parentOf (p : String) : String :=
  String.intercalate "/" (p.splitOn "/").dropLast

/-- One element of `Entry.files`: a bare string or a `{name, rename}` /
`{name}` table. -/
inductive FileSpec where
  | str (s : String)
  | tbl (nm : String) (ren : Option String)
  deriving DecidableEq

/-- `(name, rename)` resolution at the top of the file loop:
a bare string is both; a table without `rename` repeats `name`. -/
def resolveSpec : FileSpec → String × String
  | .str s => (s, s)
  | .tbl nm (some r) => (nm, r)
  | .tbl nm none => (nm, nm)

/-- The `[Entry]` section as the `link` command reads it from the raw
config dict: `cmd` defaults to `""`, `install_cmds` to `[]`
(the `str` variant of `install_cmds` is not modelled — no claim uses it). -/
structure Entry where
  cmd : String
  install_cmds : List String
  location : String
  files : List FileSpec
  deriving DecidableEq

/-- The raw config dict as `link` accesses it: optional `[Entry]`,
`Deps`, `OptionalDeps` and `[After]` sections, plus the entry's name. -/
structure LinkConfig where
  entryName : String
  entry? : Option Entry
  deps : List DepIn
  optionalDeps : List DepIn
  after : Option AfterConf

/-- The message of the `error(...)` call in the implicit-file branch. -/
def multipleFilesMsg : String :=
  "Multiple files found except the `" ++ LINK_CONFIG_FILE_NAME ++
    "`. You must specify the `files` configuration item."

/-- The `if not filenames:` block of `link`: with an empty `files` list,
list the entry directory without the config file; ANY non-zero count trips
the `error` (which exits), and the `filenames = [dir_items[0].name]` line
that follows is therefore only ever reached with an empty listing, where
it raises `IndexError`. -/
def resolveFilenames (fs : FS) (files : List FileSpec) :
    Sum (List FileSpec) (Outcome Unit × List Event) :=
  match files with
  | [] =>
      let dir_items := fs.entryDirItems.filter (fun n => n ≠ LINK_CONFIG_FILE_NAME)
      if dir_items.length > 0 then
        Sum.inr (.exits 1, [Event.errorOut multipleFilesMsg])
      else
        Sum.inr (.exc .indexError, [])
  | f :: rest => Sum.inl (f :: rest)

/-- The `for f in filenames:` loop of `link`, threading the filesystem and
the `links` rollback list.  In strict mode `error(...)` exits immediately,
so in the `FileExistsError` branch the rollback statements after it are
unreachable and the filesystem is returned as it stands. -/
def fileLoop (env : Env) (interactive : Bool) (entry_dir location : String) :
    List FileSpec → FS → List String → Outcome Unit × FS × List String × List Event
  | [], fs, links => (.ok (), fs, links, [])
  | f :: rest, fs, links =>
      let nr := resolveSpec f
      let lnk := pjoin location nr.2
      let item := pjoin entry_dir nr.1
      match fs.cond lnk with
      | .free =>
          let fs2 := fs.setCond lnk .occupied
          let r := fileLoop env interactive entry_dir location rest fs2 (links ++ [lnk])
          (r.1, r.2.1, r.2.2.1, Event.echo ("Restore " ++ item ++ " -> " ++ lnk) :: r.2.2.2)
      | .occupied =>
          if interactive = false then
            (.exits 1, fs, links, [Event.errorOut ("File " ++ lnk ++ " exists")])
          else if env.confirm ("Replace " ++ lnk ++ "?") = false then
            fileLoop env interactive entry_dir location rest fs links
          else
            let fs2 := (fs.setCond lnk .free).setCond lnk .occupied
            let r := fileLoop env interactive entry_dir location rest fs2 (links ++ [lnk])
            (r.1, r.2.1, r.2.2.1, Event.echo ("Restore " ++ item ++ " -> " ++ lnk) :: r.2.2.2)
      | .parentMissing =>
          if interactive = false then
            (.exits 1, fs, links, [Event.errorOut ("Directory `" ++ parentOf lnk ++ "` not found")])
          else if env.confirm ("Create `" ++ parentOf lnk ++ "`?") = false then
            fileLoop env interactive entry_dir location rest fs links
          else
            let fs2 := (fs.setCond lnk .free).setCond lnk .occupied
            let r := fileLoop env interactive entry_dir location rest fs2 (links ++ [lnk])
            (r.1, r.2.1, r.2.2.1, Event.echo ("Restore " ++ item ++ " -> " ++ lnk) :: r.2.2.2)
      | .parentNotDir =>
          (.exits 1, fs, links, [Event.errorOut ("Not a directory: " ++ lnk)])

/-- Tail of the `link` command after the dependency phase succeeded:
implicit-file resolution, the file loop, then `do_after_action`.
`tr0` is the trace accumulated by the dependency phase. -/
def linkFiles (env : Env) (fs : FS) (interactive : Bool) (cfg : LinkConfig) (entry : Entry)
    (tr0 : List Event) : Outcome Unit × FS × List Event :=
  let entry_dir := pjoin configDir cfg.entryName
  match resolveFilenames fs entry.files with
  | Sum.inr r => (r.1, fs, tr0 ++ r.2)
  | Sum.inl filenames =>
      let r := fileLoop env interactive entry_dir entry.location filenames fs []
      match r.1 with
      | .ok _ =>
          let ra := do_after_action env cfg.after
          (ra.1, r.2.1, tr0 ++ r.2.2.2 ++ ra.2)
      | o => (o, r.2.1, tr0 ++ r.2.2.2)

/-- The `link` CLI command (`read_config` already done: the parsed config
is `cfg`): Entry-section check, `cmd_install_command`, required deps,
optional deps, then the link engine and the post-link action. -/
def linkCmd (env : Env) (fs : FS) (interactive : Bool) (cfg : LinkConfig) :
    Outcome Unit × FS × List Event :=
  match cfg.entry? with
  | none => (.exc (.clickException "Entry section not found in config"), fs, [])
  | some entry =>
      match cmd_install_command env interactive entry.cmd entry.install_cmds with
      | (.ok _, tr1) =>
          match handle_deps env interactive true cfg.deps with
          | (.ok _, tr2) =>
              match handle_optional_deps env interactive true cfg.optionalDeps with
              | (.ok _, tr3) => linkFiles env fs interactive cfg entry (tr1 ++ tr2 ++ tr3)
              | (o, tr3) => (o, fs, tr1 ++ tr2 ++ tr3)
          | (o, tr2) => (o, fs, tr1 ++ tr2)
      | (o, tr1) => (o, fs, tr1)

/-- Root directory state for the `ls` command: subdirectory names and
which of them contain a `.flash.toml`. -/
structure RootFS where
  dirs : List String
  hasConfigFile : String → Bool

/-- Names defined at module level of `flash.py` (imports, module
assignments, classes and functions), in source order. -/
def moduleGlobals : List String :=
  ["os", "pprint", "dataclass", "Path", "which", "List", "Optional", "Union",
   "click", "toml", "ClickException", "from_dict",
   "config_dir", "LINK_CONFIG_FILE_NAME",
   "EntryFile", "ManagerConf", "ManagerConfs", "Entry", "Dependency", "Config",
   "unify_manager_confs", "read_config", "warn", "error", "error_msg",
   "cli", "link", "unlink", "ls",
   "cmd_install_command", "command_exits", "exec_command",
   "handle_package", "handle_package_managers", "install_command",
   "LinkHandler", "do_after_action", "show", "__name__"]

/-- A representative subset of Python's builtins (name resolution falls
back to builtins after module globals; `_root_dir` is not a builtin). -/
def pythonBuiltins : List String :=
  ["print", "len", "isinstance", "open", "exit", "str", "int", "list", "dict",
   "set", "enumerate", "range", "Exception", "sorted", "map", "filter", "zip",
   "type", "getattr", "setattr", "hasattr", "repr", "abs", "min", "max", "sum",
   "any", "all", "bool", "float", "tuple", "iter", "next", "super", "object",
   "NameError", "IndexError", "KeyError", "ValueError", "TypeError",
   "RuntimeError", "SystemExit", "BaseException", "FileExistsError",
   "FileNotFoundError", "NotADirectoryError", "globals", "locals"]

/-- The `ls` CLI command.  Its comprehension iterates `_root_dir`, a name
Python resolves at call time against module globals and then builtins;
it is defined in neither, so the lookup raises `NameError` before any
directory is inspected. -/
def lsCommand (rfs : RootFS) : Outcome (List String) × List Event :=
  if moduleGlobals.contains "_root_dir" ∨ pythonBuiltins.contains "_root_dir" then
    (.ok (rfs.dirs.filter rfs.hasConfigFile), [])
  else
    (.exc (.nameError "_root_dir"), [])

/-- Trace of a run of failing manager candidates: each candidate's shell
events followed by the warning that records its failure. -/
def failTrace (env : Env) (cmd : String) (lk : Bool) (l : List ManagerConf) : List Event :=
  l.flatMap fun m => (hpAttempt env cmd lk m).2 ++ [Event.warn (hpAttempt env cmd lk m).1]

/-- The sublist of post-link action commands whose `Run?` prompt
(the `idx`-th one overall) the user accepts. -/
def confirmedFrom (env : Env) (idx : Nat) : List String → List String
  | [] => []
  | c :: rest =>
      if env.confirmRun idx then c :: confirmedFrom env (idx + 1) rest
      else confirmedFrom env (idx + 1) rest

/-- The shell commands invoked in a trace, in order. -/
def runEvents (tr : List Event) : List String :=
  tr.filterMap fun e =>
    match e with
    | .run c => some c
    | _ => none

/-- Expected trace of the optional-dependency loop when no dependency
aborts: every dependency's own trace, a warning appended after each one
that failed. -/
def optTrace (env : Env) (interactive lk : Bool) (deps : List DepIn) : List Event :=
  deps.flatMap fun d =>
    match _handle_dep env interactive lk d with
    | (.ok _, tr) => tr
    | (.exc e, tr) => tr ++ [Event.warn (excMsg e)]
    | (.exits _, tr) => tr

/-- Fixture for C1: only `brew` is on PATH besides the dependency's own
command `foo`; every shell command succeeds. -/
def envC1 : Env :=
  Env.mk (fun s => s == "brew" || s == "foo") (fun _ => 0) (fun _ => false)
    (fun _ => false) ["pacman", "yay", "brew"]

/-- Fixture for C1: a dependency with no `managers` and no
`install_cmds`. -/
def depC1 : Dependency := Dependency.mk "foo" none none none

/-- Fixture for C2: all three managers on PATH; `yay -S p1` fails,
`brew install p2` succeeds. -/
def envC2 : Env :=
  Env.mk (fun s => s == "pacman" || s == "yay" || s == "brew")
    (fun c => if c == "brew install p2" then 0 else 256)
    (fun _ => false) (fun _ => false) ["pacman", "yay", "brew"]

/-- Fixture for C2: explicit preferences `[yay/p1, brew/p2]`. -/
def msC2 : List ManagerConf :=
  [ManagerConf.mk "yay" (some "p1"), ManagerConf.mk "brew" (some "p2")]

/-- Fixture for C3: nothing is on PATH (neither `brew` nor `nvim`). -/
def envC3 : Env :=
  Env.mk (fun _ => false) (fun _ => 256) (fun _ => false) (fun _ => false)
    ["pacman", "yay", "brew"]

/-- Fixture for C3: `cmd = "nvim"`, no `install_cmds`,
`managers = ["brew"]`. -/
def depC3 : Dependency :=
  Dependency.mk "nvim" none none (some [ManagerConfIn.bare "brew"])

/-- Fixture for C4: `true` and `echo` resolve on PATH, `xcmd` does not;
`true` and `echo done` exit zero, everything else fails. -/
def envC4 : Env :=
  Env.mk (fun s => s == "true" || s == "echo")
    (fun c => if c == "true" || c == "echo done" then 0 else 256)
    (fun _ => false) (fun _ => false) ["pacman", "yay", "brew"]

/-- Fixture for C4: an install list with a blank entry, an entry whose
leading token does not resolve, a succeeding command and a trailing one. -/
def cmdsC4 : List String := ["   ", "xcmd arg", "true", "echo done"]

/-- C1 (counterexample): for the dependency `depC1` — empty `managers`,
empty `installCommands` — on a system where `brew` is installed,
dependency resolution SUCCEEDS and invokes the package-manager install
command `brew install foo`; it neither fails with a configuration error
nor refrains from installing, so the claim is false as stated. -/
theorem handle_dep_empty_attempts_install_cex :
    _handle_dep envC1 false true (DepIn.dict depC1) =
      (.ok (), [Event.run "brew install foo"]) := by decide

/-- C1 (amended): a dependency with no `managers` and no
`installCommands` is not rejected as invalid; `_handle_dep` delegates to
`handle_package_managers` with an empty preference list (which synthesizes
one candidate per supported manager installed on the system and attempts
installation through them), and in strict mode resolution fails — with
`ClickException "<cmd> not found"`, not a config error — only when the
dependency's command is still absent afterwards. -/
theorem handle_dep_empty_fallback (env : Env) (d : Dependency)
    (hic : d.install_cmds = none ∨ d.install_cmds = some [])
    (hm : d.managers = none ∨ d.managers = some []) :
    _handle_dep env false true (.dict d) =
      (if env.which d.cmd then
        (Outcome.ok (), (handle_package_managers env d.cmd [] true).2)
      else
        (Outcome.exc (Exc.clickException (d.cmd ++ " not found")),
          (handle_package_managers env d.cmd [] true).2)) := by
  have h1 : pyTruthy d.install_cmds = false := by
    rcases hic with h | h <;> simp [h, pyTruthy]
  by_cases hw : env.which d.cmd <;>
    rcases hm with h | h <;>
      simp [_handle_dep, h1, h, unify_manager_confs, hw]

/-- C1 (witness for the amended theorem at the concrete fixture). -/
theorem handle_dep_empty_fallback_wit :
    _handle_dep envC1 false true (.dict depC1) =
      (if envC1.which depC1.cmd then
        (Outcome.ok (), (handle_package_managers envC1 depC1.cmd [] true).2)
      else
        (Outcome.exc (Exc.clickException (depC1.cmd ++ " not found")),
          (handle_package_managers envC1 depC1.cmd [] true).2)) :=
  handle_dep_empty_fallback envC1 depC1 (Or.inl rfl) (Or.inl rfl)

/-- C3: with `cmd = "nvim"`, no `install_cmds`, `managers = ["brew"]`,
`brew` absent and no other manager present, `handle_package_managers`
does return the error string "no installed package manager found" — but
`_handle_dep` discards that return value (its `try`/`except` only catches
raised exceptions), so nothing reports it; resolution instead fails at the
re-probe with `ClickException "nvim not found"` and an empty trace. -/
theorem nvim_manager_error_discarded :
    handle_package_managers envC3 "nvim"
        (unify_manager_confs "nvim" [ManagerConfIn.bare "brew"]) true
      = ("no installed package manager found", []) ∧
    _handle_dep envC3 false true (.dict depC3) =
      (.exc (.clickException "nvim not found"), []) :=
  ⟨by decide, by decide⟩

/-- C4: `install_command` on `["   ", "xcmd arg", "true", "echo done"]`
(with `xcmd` absent from PATH) runs EVERY entry of the original list —
including the blank entry and the one whose leading token does not
resolve — and keeps running after `true` exits zero; the filtered
`valid_commands` list (second conjunct) is computed but only its
emptiness is ever used. -/
theorem install_command_runs_unfiltered_list :
    install_command envC4 cmdsC4 =
      (.ok (), [Event.run "   ", Event.run "xcmd arg",
                Event.run "true", Event.run "echo done"]) ∧
    (cmdsC4.filter fun c => pyStrip c ≠ "" ∧ envC4.which (firstToken c) = true)
      = ["true", "echo done"] :=
  ⟨by decide, by decide⟩

/-- C9: for every root-directory state, the `ls` command raises
`NameError` on `_root_dir` (the name is defined neither among
`flash.py`'s module globals nor among Python's builtins), so `ls` never
lists any entry. -/
theorem ls_raises_nameerror (rfs : RootFS) :
    lsCommand rfs = (.exc (.nameError "_root_dir"), []) := by
  simp [lsCommand, moduleGlobals, pythonBuiltins]

/-- When every candidate of the manager loop fails, the loop warns about
each in order and returns "failed". -/
theorem hpmLoop_all_fail (env : Env) (cmd : String) (lk : Bool) :
    ∀ l : List ManagerConf, (∀ x ∈ l, (hpAttempt env cmd lk x).1 ≠ "") →
      hpmLoop env cmd lk l = ("failed", failTrace env cmd lk l) := by
  intro l
  induction l with
  | nil => intro _; simp [hpmLoop, failTrace]
  | cons m rest ih =>
      intro h
      have hm : (hpAttempt env cmd lk m).1 ≠ "" := h m (by simp)
      have hrest := ih (fun x hx => h x (by simp [hx]))
      simp [hpmLoop, hm, hrest, failTrace]

/-- The manager loop stops at the first succeeding candidate: it returns
success with the failing prefix's traces and warnings followed by the
succeeding candidate's trace; candidates after it are never attempted. -/
theorem hpmLoop_first_success (env : Env) (cmd : String) (lk : Bool) :
    ∀ (pre : List ManagerConf) (m : ManagerConf) (post : List ManagerConf),
      (∀ x ∈ pre, (hpAttempt env cmd lk x).1 ≠ "") →
      (hpAttempt env cmd lk m).1 = "" →
      hpmLoop env cmd lk (pre ++ m :: post) =
        ("", failTrace env cmd lk pre ++ (hpAttempt env cmd lk m).2) := by
  intro pre
  induction pre with
  | nil => intro m post _ hm; simp [hpmLoop, hm, failTrace]
  | cons x xs ih =>
      intro m post h hm
      have hx : (hpAttempt env cmd lk x).1 ≠ "" := h x (by simp)
      have hxs := ih m post (fun y hy => h y (by simp [hy])) hm
      simp [hpmLoop, hx, hxs, failTrace]

/-- C2: for a non-empty preference list whose members are all supported
and all installed, `handle_package_managers` runs exactly the ordered
fallback loop over that list in input order: when a first succeeding
candidate exists it stops there and returns success (candidates after it
are never invoked and their shell commands never appear in the trace),
each failing candidate before it is recorded with a warning, and only
when every candidate fails does it return an error. -/
theorem handle_package_managers_ordered_fallback
    (env : Env) (cmd : String) (lk : Bool) (ms : List ManagerConf)
    (hne : ms ≠ [])
    (hsup : ∀ m ∈ ms, supportedManagers.contains m.name = true)
    (hinst : ∀ m ∈ ms, env.which m.name = true) :
    handle_package_managers env cmd ms lk = hpmLoop env cmd lk ms ∧
    (∀ pre m post, ms = pre ++ m :: post →
      (∀ x ∈ pre, (hpAttempt env cmd lk x).1 ≠ "") →
      (hpAttempt env cmd lk m).1 = "" →
      handle_package_managers env cmd ms lk =
        ("", failTrace env cmd lk pre ++ (hpAttempt env cmd lk m).2)) ∧
    ((∀ x ∈ ms, (hpAttempt env cmd lk x).1 ≠ "") →
      handle_package_managers env cmd ms lk = ("failed", failTrace env cmd lk ms)) := by
  have h1 : handle_package_managers env cmd ms lk = hpmLoop env cmd lk ms := by
    cases ms with
    | nil => exact absurd rfl hne
    | cons a l =>
        have hs : (a :: l).filter (fun x => decide (x.name ∈ supportedManagers)) = a :: l := by
          rw [List.filter_eq_self]
          intro x hx
          simpa using hsup x hx
        have hi : (a :: l).filter (fun x => env.which x.name) = a :: l :=
          List.filter_eq_self.mpr hinst
        simp [handle_package_managers, hs, hi, hpmAfterInstalled]
  refine ⟨h1, ?_, ?_⟩
  · intro pre m post hms hpre hm
    rw [h1, hms]
    exact hpmLoop_first_success env cmd lk pre m post hpre hm
  · intro hall
    rw [h1]
    exact hpmLoop_all_fail env cmd lk ms hall

/-- C2 (witness at the concrete fixture `[yay/p1, brew/p2]`). -/
theorem handle_package_managers_ordered_fallback_wit :
    handle_package_managers envC2 "c" msC2 true = hpmLoop envC2 "c" true msC2 :=
  (handle_package_managers_ordered_fallback envC2 "c" true msC2
    (by decide) (by decide) (by decide)).1

/-- Invariant of the post-link action loop: the resulting wait status is
the fold of `os.system` over the accepted commands starting from the
incoming `last`, the shell commands actually run are exactly the accepted
ones in order, and every accepted command with a non-zero status leaves a
`Failed` report in the trace. -/
theorem do_after_loop_spec (env : Env) :
    ∀ (cmds : List String) (idx last : Nat),
      (do_after_loop env cmds idx last).1 =
        (confirmedFrom env idx cmds).foldl (fun _ c => env.system c) last ∧
      runEvents (do_after_loop env cmds idx last).2 = confirmedFrom env idx cmds ∧
      (∀ c ∈ confirmedFrom env idx cmds, env.system c ≠ 0 →
        Event.errorMsg "Failed" ∈ (do_after_loop env cmds idx last).2) := by
  intro cmds
  induction cmds with
  | nil =>
      intro idx last
      simp [do_after_loop, confirmedFrom, runEvents]
  | cons c rest ih =>
      intro idx last
      by_cases hc : env.confirmRun idx = true
      · rcases ih (idx + 1) (env.system c) with ⟨ih1, ih2, ih3⟩
        refine ⟨?_, ?_, ?_⟩
        · simp [do_after_loop, hc, confirmedFrom, ih1]
        · by_cases hw : env.system c = 0
          · rw [hw] at ih2
            simp [do_after_loop, hc, hw, confirmedFrom, runEvents]
            simpa [runEvents] using ih2
          · simp [do_after_loop, hc, hw, confirmedFrom, runEvents]
            simpa [runEvents] using ih2
        · intro x hx hxe
          have hx2 : x = c ∨ x ∈ confirmedFrom env (idx + 1) rest := by
            simpa [confirmedFrom, hc] using hx
          by_cases hw : env.system c = 0
          · rcases hx2 with rfl | hxcf
            · exact absurd hw hxe
            · have hmem := ih3 x hxcf hxe
              rw [hw] at hmem
              simp [do_after_loop, hc, hw]
              tauto
          · simp [do_after_loop, hc, hw]
      · rcases ih (idx + 1) last with ⟨ih1, ih2, ih3⟩
        refine ⟨?_, ?_, ?_⟩
        · simp [do_after_loop, hc, confirmedFrom, ih1]
        · simp [do_after_loop, hc, confirmedFrom, runEvents]
          simpa [runEvents] using ih2
        · intro x hx hxe
          have hxcf : x ∈ confirmedFrom env (idx + 1) rest := by
            simpa [confirmedFrom, hc] using hx
          have hmem := ih3 x hxcf hxe
          simp [do_after_loop, hc]
          tauto

/-- C7: when a post-link action is accepted, the process exits with the
exit code of the LAST executed (accepted) command — zero when no command
was executed — the shell runs exactly the accepted commands in order
(a failing command never stops the later ones from being offered and run),
and each non-zero status is reported with a `Failed` line. -/
theorem after_action_exit_policy (env : Env) (a : AfterConf)
    (hacc : env.confirm "Do after action?" = true) :
    (do_after_action env (some a)).1 =
      Outcome.exits (waitstatus_to_exitcode
        ((confirmedFrom env 0 a.cmds).foldl (fun _ c => env.system c) 0)) ∧
    runEvents (do_after_action env (some a)).2 = confirmedFrom env 0 a.cmds ∧
    (confirmedFrom env 0 a.cmds = [] →
      (do_after_action env (some a)).1 = Outcome.exits 0) ∧
    (∀ l c, confirmedFrom env 0 a.cmds = l ++ [c] →
      (do_after_action env (some a)).1 =
        Outcome.exits (waitstatus_to_exitcode (env.system c))) ∧
    (∀ c ∈ confirmedFrom env 0 a.cmds, env.system c ≠ 0 →
      Event.errorMsg "Failed" ∈ (do_after_action env (some a)).2) := by
  rcases do_after_loop_spec env a.cmds 0 0 with ⟨h1, h2, h3⟩
  have hda : do_after_action env (some a) =
      (.exits (waitstatus_to_exitcode (do_after_loop env a.cmds 0 0).1),
        (do_after_loop env a.cmds 0 0).2) := by
    simp [do_after_action, hacc]
  refine ⟨?_, ?_, ?_, ?_, ?_⟩
  · rw [hda]
    simp [h1]
  · rw [hda]
    exact h2
  · intro he
    rw [hda]
    simp [h1, he, waitstatus_to_exitcode]
  · intro l c hl
    rw [hda]
    simp [h1, hl, List.foldl_append]
  · intro c hc hce
    rw [hda]
    simpa using h3 c hc hce

/-- Fixture for C7: the action prompt is accepted; the `Run?` prompts for
commands 0 and 2 are accepted, the one for command 1 declined; `u` fails
(status 256), `w` succeeds. -/
def envC7 : Env :=
  Env.mk (fun _ => false) (fun c => if c == "w" then 0 else 256)
    (fun s => s == "Do after action?") (fun i => i == 0 || i == 2)
    ["pacman", "yay", "brew"]

/-- Fixture for C7: a three-command action list. -/
def afterC7 : AfterConf := AfterConf.mk ["u", "v", "w"]

/-- C7 (witness at the concrete fixture). -/
theorem after_action_exit_policy_wit :
    runEvents (do_after_action envC7 (some afterC7)).2 =
      confirmedFrom envC7 0 afterC7.cmds :=
  (after_action_exit_policy envC7 afterC7 (by decide)).2.1

/-- Fixture for C5: nothing on PATH, every shell command fails, every
prompt declined. -/
def envC5 : Env :=
  Env.mk (fun _ => false) (fun _ => 256) (fun _ => false) (fun _ => false)
    ["pacman", "yay", "brew"]

/-- Fixture for C5: the entry directory holds the config file and exactly
one other file. -/
def fsC5 : FS := FS.mk [".flash.toml", "a.conf"] (fun _ => .free)

/-- Fixture for C5: an `[Entry]` with an empty `files` list. -/
def entryC5 : Entry := Entry.mk "" [] "loc" []

/-- Fixture for C5: a config with only that entry. -/
def cfgC5 : LinkConfig := LinkConfig.mk "e" (some entryC5) [] [] none

/-- C5: with an empty `files` list and EXACTLY ONE non-config file in the
entry directory, the `link` command does not link that file: the
`len(dir_items) > 0` guard (where `> 1` was evidently intended — the
`filenames = [dir_items[0].name]` line after it is unreachable whenever it
would apply) prints the "Multiple files found" configuration error and
exits 1, leaving the destination untouched. -/
theorem link_single_implicit_file_errors :
    (linkCmd envC5 fsC5 false cfgC5).1 = Outcome.exits 1 ∧
    (linkCmd envC5 fsC5 false cfgC5).2.2 = [Event.errorOut multipleFilesMsg] ∧
    (linkCmd envC5 fsC5 false cfgC5).2.1.cond (pjoin "loc" "a.conf") = PathCond.free :=
  ⟨by decide, by decide, by decide⟩

/-- Fixture for C6 (shared by counterexample and amended theorem). -/
def envC6 : Env :=
  Env.mk (fun _ => false) (fun _ => 256) (fun _ => false) (fun _ => false)
    ["pacman", "yay", "brew"]

/-- Fixture for C6: two files to link. -/
def entryC6 : Entry := Entry.mk "" [] "loc" [FileSpec.str "a", FileSpec.str "b"]

/-- Fixture for C6. -/
def cfgC6 : LinkConfig := LinkConfig.mk "e" (some entryC6) [] [] none

/-- Fixture for C6: destination `loc/b` already occupied, everything else
creatable. -/
def fsC6 : FS :=
  FS.mk [".flash.toml"] (fun p => if p = "loc/b" then .occupied else .free)

/-- C6 (counterexample): in strict mode, after `loc/a` is created the
second file hits `FileExistsError` at `loc/b`; the run exits 1 and the
link created at `loc/a` during this run is STILL PRESENT afterwards —
no rollback happens, because `error()` exits before the cleanup line. -/
theorem strict_exists_keeps_created_links_cex :
    fsC6.cond (pjoin "loc" "a") = PathCond.free ∧
    (linkCmd envC6 fsC6 false cfgC6).1 = Outcome.exits 1 ∧
    (linkCmd envC6 fsC6 false cfgC6).2.2 =
      [Event.echo ("Restore ./e/a -> loc/a"), Event.errorOut ("File loc/b exists")] ∧
    (linkCmd envC6 fsC6 false cfgC6).2.1.cond (pjoin "loc" "a") = PathCond.occupied :=
  ⟨by decide, by decide, by decide, by decide⟩

/-- C6 (amended): in strict mode a `FileExistsError` makes the run fail
fatally AT ONCE — `error()` prints and exits 1 — and the statements
rolling back the run's recorded links are unreachable, so the filesystem
and the recorded link list are returned exactly as they stood. -/
theorem strict_exists_no_rollback (env : Env) (ed loc : String) (f : FileSpec)
    (rest : List FileSpec) (fs : FS) (links : List String)
    (h : fs.cond (pjoin loc (resolveSpec f).2) = PathCond.occupied) :
    fileLoop env false ed loc (f :: rest) fs links =
      (.exits 1, fs, links,
        [Event.errorOut ("File " ++ pjoin loc (resolveSpec f).2 ++ " exists")]) := by
  simp [fileLoop, h]

/-- Fixture for the C6 witness: every destination occupied. -/
def fsC6w : FS := FS.mk [] (fun _ => .occupied)

/-- C6 (witness for the amended theorem at a concrete input). -/
theorem strict_exists_no_rollback_wit :
    fileLoop envC6 false "ed" "l" [FileSpec.str "x"] fsC6w [] =
      (.exits 1, fsC6w, [],
        [Event.errorOut ("File " ++ pjoin "l" (resolveSpec (FileSpec.str "x")).2 ++ " exists")]) :=
  strict_exists_no_rollback envC6 "ed" "l" (FileSpec.str "x") [] fsC6w [] rfl

/-- When no optional dependency aborts or exits, the optional loop
swallows every failure: it returns ok and its trace is each dependency's
own trace with a warning appended after each failed one — so every
optional dependency is attempted. -/
theorem optDepsLoop_no_abort (env : Env) (i lk : Bool) :
    ∀ deps : List DepIn,
      (∀ d ∈ deps, (_handle_dep env i lk d).1 ≠ Outcome.exc Exc.abort ∧
        ∀ n, (_handle_dep env i lk d).1 ≠ Outcome.exits n) →
      optDepsLoop env i lk deps = (.ok (), optTrace env i lk deps) := by
  intro deps
  induction deps with
  | nil => intro _; simp [optDepsLoop, optTrace]
  | cons d rest ih =>
      intro h
      rcases hd : _handle_dep env i lk d with ⟨o, tr⟩
      rcases h d (by simp) with ⟨hab, hex⟩
      rw [hd] at hab hex
      have hrest := ih (fun x hx => h x (by simp [hx]))
      cases o with
      | ok a => simp [optDepsLoop, optTrace, hd, hrest]
      | exits n => exact absurd rfl (hex n)
      | exc e =>
          cases e with
          | abort => exact absurd rfl hab
          | clickException m => simp [optDepsLoop, optTrace, hd, hrest]
          | generic m => simp [optDepsLoop, optTrace, hd, hrest]
          | nameError nm => simp [optDepsLoop, optTrace, hd, hrest]
          | indexError => simp [optDepsLoop, optTrace, hd, hrest]

/-- An abort raised by an optional dependency is re-raised through the
optional loop, whatever well-behaved dependencies precede it. -/
theorem optDepsLoop_abort (env : Env) (i lk : Bool) :
    ∀ (pre : List DepIn) (d : DepIn) (post : List DepIn),
      (∀ x ∈ pre, (_handle_dep env i lk x).1 ≠ Outcome.exc Exc.abort ∧
        ∀ n, (_handle_dep env i lk x).1 ≠ Outcome.exits n) →
      (_handle_dep env i lk d).1 = Outcome.exc Exc.abort →
      (optDepsLoop env i lk (pre ++ d :: post)).1 = Outcome.exc Exc.abort := by
  intro pre
  induction pre with
  | nil =>
      intro d post _ hd
      rcases hdp : _handle_dep env i lk d with ⟨o, tr⟩
      rw [hdp] at hd
      simp at hd
      subst hd
      simp [optDepsLoop, hdp]
  | cons x xs ih =>
      intro d post h hd
      rcases hx : _handle_dep env i lk x with ⟨o, trx⟩
      rcases h x (by simp) with ⟨hab, hex⟩
      rw [hx] at hab hex
      have htl := ih d post (fun y hy => h y (by simp [hy])) hd
      cases o with
      | ok a => simp [optDepsLoop, hx, htl]
      | exits n => exact absurd rfl (hex n)
      | exc e =>
          cases e with
          | abort => exact absurd rfl hab
          | clickException m => simp [optDepsLoop, hx, htl]
          | generic m => simp [optDepsLoop, hx, htl]
          | nameError nm => simp [optDepsLoop, hx, htl]
          | indexError => simp [optDepsLoop, hx, htl]

/-- C8: the dependency failure-policy split of the `link` command —
(1) a failure raised while resolving the required dependency list is
fatal: `linkCmd` propagates it with the filesystem untouched and no file
ever processed; (2) when no optional dependency aborts or exits, the
optional loop warns about each failure and attempts every remaining
optional dependency, returning ok; (3) with the dependency phase ok, the
run proceeds to the link engine (`linkFiles`); (4) an explicit user abort
is re-raised through the optional-dependency loop. -/
theorem dep_failure_policy :
    (∀ (env : Env) (fs : FS) (i : Bool) (cfg : LinkConfig) (entry : Entry) (e : Exc)
        (trc trd : List Event),
      cfg.entry? = some entry →
      cmd_install_command env i entry.cmd entry.install_cmds = (.ok (), trc) →
      handle_deps env i true cfg.deps = (.exc e, trd) →
      linkCmd env fs i cfg = (.exc e, fs, trc ++ trd)) ∧
    (∀ (env : Env) (i lk : Bool) (deps : List DepIn),
      (∀ d ∈ deps, (_handle_dep env i lk d).1 ≠ Outcome.exc Exc.abort ∧
        ∀ n, (_handle_dep env i lk d).1 ≠ Outcome.exits n) →
      optDepsLoop env i lk deps = (.ok (), optTrace env i lk deps)) ∧
    (∀ (env : Env) (fs : FS) (i : Bool) (cfg : LinkConfig) (entry : Entry)
        (tr1 tr2 tr3 : List Event),
      cfg.entry? = some entry →
      cmd_install_command env i entry.cmd entry.install_cmds = (.ok (), tr1) →
      handle_deps env i true cfg.deps = (.ok (), tr2) →
      handle_optional_deps env i true cfg.optionalDeps = (.ok (), tr3) →
      linkCmd env fs i cfg = linkFiles env fs i cfg entry (tr1 ++ tr2 ++ tr3)) ∧
    (∀ (env : Env) (i lk : Bool) (pre : List DepIn) (d : DepIn) (post : List DepIn),
      (∀ x ∈ pre, (_handle_dep env i lk x).1 ≠ Outcome.exc Exc.abort ∧
        ∀ n, (_handle_dep env i lk x).1 ≠ Outcome.exits n) →
      (_handle_dep env i lk d).1 = Outcome.exc Exc.abort →
      (optDepsLoop env i lk (pre ++ d :: post)).1 = Outcome.exc Exc.abort) := by
  refine ⟨?_, ?_, ?_, ?_⟩
  · intro env fs i cfg entry e trc trd h1 h2 h3
    simp [linkCmd, h1, h2, h3]
  · intro env i lk deps h
    exact optDepsLoop_no_abort env i lk deps h
  · intro env fs i cfg entry tr1 tr2 tr3 h1 h2 h3 h4
    simp [linkCmd, h1, h2, h3, h4]
  · intro env i lk pre d post h hd
    exact optDepsLoop_abort env i lk pre d post h hd

/-- Fixture for C8: nothing on PATH, all shell commands fail, prompts
declined. -/
def envC8 : Env :=
  Env.mk (fun _ => false) (fun _ => 256) (fun _ => false) (fun _ => false)
    ["pacman", "yay", "brew"]

/-- Fixture for C8. -/
def entryC8 : Entry := Entry.mk "" [] "loc" [FileSpec.str "a"]

/-- Fixture for C8: one required dependency `missing` that cannot be
resolved. -/
def cfgC8 : LinkConfig :=
  LinkConfig.mk "e" (some entryC8) [DepIn.bare "missing"] [] none

/-- Fixture for C8. -/
def fsC8 : FS := FS.mk [".flash.toml", "a"] (fun _ => .free)

/-- C8 (witness: part (1) instantiated — a failing required dependency
aborts the run before any file is processed). -/
theorem dep_failure_policy_wit :
    linkCmd envC8 fsC8 false cfgC8 =
      (Outcome.exc (Exc.clickException "missing not found"), fsC8,
        [] ++ [Event.step "Dependencies"]) :=
  dep_failure_policy.1 envC8 fsC8 false cfgC8 entryC8
    (Exc.clickException "missing not found") [] [Event.step "Dependencies"]
    rfl (by decide) (by decide)

/-- C10: with an empty `files` list and NO non-config file in the entry
directory, the `link` command raises an uncaught `IndexError` at
`dir_items[0]` (instead of a labeled configuration error): the dependency
phase succeeds, and the run dies with the bare exception, filesystem
untouched. -/
theorem link_empty_dir_indexerror (env : Env) (fs : FS) (i : Bool) (cfg : LinkConfig)
    (entry : Entry) (tr1 tr2 tr3 : List Event)
    (hentry : cfg.entry? = some entry)
    (hfiles : entry.files = [])
    (hdir : fs.entryDirItems.filter (fun n => n ≠ LINK_CONFIG_FILE_NAME) = [])
    (hcic : cmd_install_command env i entry.cmd entry.install_cmds = (.ok (), tr1))
    (hdeps : handle_deps env i true cfg.deps = (.ok (), tr2))
    (hodeps : handle_optional_deps env i true cfg.optionalDeps = (.ok (), tr3)) :
    linkCmd env fs i cfg = (.exc .indexError, fs, tr1 ++ tr2 ++ tr3) := by
  have hdir2 : fs.entryDirItems.filter (fun n => !decide (n = LINK_CONFIG_FILE_NAME)) = [] := by
    simpa using hdir
  simp [linkCmd, hentry, hcic, hdeps, hodeps, linkFiles, resolveFilenames, hfiles, hdir2]

/-- Fixture for C10. -/
def envC10 : Env :=
  Env.mk (fun _ => false) (fun _ => 256) (fun _ => false) (fun _ => false)
    ["pacman", "yay", "brew"]

/-- Fixture for C10: entry directory holding only the config file. -/
def fsC10 : FS := FS.mk [".flash.toml"] (fun _ => .free)

/-- Fixture for C10: an `[Entry]` with an empty `files` list. -/
def entryC10 : Entry := Entry.mk "" [] "loc" []

/-- Fixture for C10. -/
def cfgC10 : LinkConfig := LinkConfig.mk "e" (some entryC10) [] [] none

/-- C10 (witness at the concrete fixture). -/
theorem link_empty_dir_indexerror_wit :
    linkCmd envC10 fsC10 false cfgC10 = (.exc .indexError, fsC10, []) :=
  link_empty_dir_indexerror envC10 fsC10 false cfgC10 entryC10 [] [] []
    rfl rfl (by decide) (by decide) (by decide) (by decide)
